import Mathlib

/-!
Verification development for the Auto-Attendance system.

The frontend (React/TypeScript) is embedded shallowly: the attendance page's
WebSocket client (`AttendancePage` in the pages source), the attendance-history
rate computation (`AttendanceHistoryPage.getAttendanceRate`) and the student
list's two-step delete (`StudentList.handleDelete`) become pure Lean functions
over explicit state records.  The backend recognition/confirmation engine is
not present in the repository snapshot; where a claim depends on it, the
relevant part is modelled from the specification text and marked as such.

Numbers arriving over the protocol (confidence, bounding boxes) are rationals;
frame counters are naturals.
-/

/-- Bounding box of a detected face, in pixel coordinates
(`bbox: { x, y, w, h }` in the `DetectedFace` interface). -/
structure BBox where
  x : ℚ
  y : ℚ
  w : ℚ
  h : ℚ
deriving DecidableEq

/-- Per-face record of a server reply, mirroring the `DetectedFace`
TypeScript interface field for field. -/
structure DetectedFace where
  name : String
  confidence : ℚ
  marked : Bool
  confirmedFlag : Bool
  bbox : BBox
  framesConfirmedField : Nat
  framesRequiredField : Nat
deriving DecidableEq

/-- One entry of the client's session log (`MarkedStudent` interface). -/
structure MarkedStudent where
  name : String
  time : String
deriving DecidableEq

/-- WebSocket ready states (`WebSocket.CONNECTING/OPEN/CLOSING/CLOSED`). -/
inductive WSReady
  | CONNECTING
  | OPEN
  | CLOSING
  | CLOSED
deriving DecidableEq

/-- A media track of the camera stream; `stopped` records whether
`track.stop()` has been called on it. -/
structure MTrack where
  stopped : Bool
deriving DecidableEq

/-- An inbound WebSocket message as the `ws.onmessage` handler sees it:
either `JSON.parse` throws (`malformed`), or it yields an object whose
`detected` field is absent (`none`) or a list of faces. -/
inductive WSMsg
  | malformed
  | wellFormed (detected : Option (List DetectedFace))

/-- Mutable state of the `AttendancePage` component: the refs
(`intervalRef`, `wsRef`, `streamRef`, `videoRef`, `canvasRef`) and the
React state (`isCameraActive`, `wsConnected`, `detected`, `markedStudents`).
`canvasCtxPresent` records whether `canvasRef.current.getContext('2d')`
returns a context rather than null; `videoFrame` abstracts the current
content of the video element. -/
structure ClientState where
  intervalRef : Option Nat
  wsRef : Option WSReady
  streamRef : Option (List MTrack)
  videoSrcObject : Bool
  videoRefPresent : Bool
  canvasRefPresent : Bool
  canvasCtxPresent : Bool
  videoFrame : Nat
  isCameraActive : Bool
  wsConnected : Bool
  detected : List DetectedFace
  markedStudents : List MarkedStudent

/-- The `setMarkedStudents` updater inside `ws.onmessage`: a face carrying
`marked` is appended to the session log unless an entry with the same name is
already there, in which case the previous log is returned unchanged.
`t` is the current time string (`new Date().toLocaleTimeString()`). -/
def updateMarked (t : String) (prev : List MarkedStudent) (f : DetectedFace) :
    List MarkedStudent :=
  if f.marked then
    if prev.any (fun s => s.name == f.name) then prev
    else ⟨f.name, t⟩ :: prev
  else prev

/-- The `ws.onmessage` handler: a message that fails to parse is ignored;
otherwise `data.detected || []` becomes the new detected list and each marked
face is folded into the session log via `updateMarked`. -/
def onMessage (t : String) (s : ClientState) (m : WSMsg) : ClientState :=
  match m with
  | .malformed => s
  | .wellFormed d =>
      let faces := d.getD []
      { s with
        detected := faces
        markedStudents := faces.foldl (updateMarked t) s.markedStudents }

/-- Delivery of a raw socket message: the browser fires `onmessage` only while
the socket object is held and open; otherwise the message has no effect. -/
def deliver (t : String) (s : ClientState) (m : WSMsg) : ClientState :=
  match s.wsRef with
  | some .OPEN => onMessage t s m
  | _ => s

/-- Client state during an active session right after `startSession` and
`connectWS` succeeded: camera on, socket open, both logs empty. -/
def sessionInit : ClientState where
  intervalRef := some 0
  wsRef := some .OPEN
  streamRef := some []
  videoSrcObject := true
  videoRefPresent := true
  canvasRefPresent := true
  canvasCtxPresent := true
  videoFrame := 0
  isCameraActive := false
  wsConnected := true
  detected := []
  markedStudents := []

/-- Run the `onmessage` handler over a sequence of received messages, each
paired with the wall-clock time string at which it arrives. -/
def runSession (msgs : List (String × WSMsg)) : ClientState :=
  msgs.foldl (fun s p => onMessage p.1 s p.2) sessionInit

/-- Number of session-log entries bearing a given name. -/
def countByName (n : String) (l : List MarkedStudent) : Nat :=
  (l.filter (fun s => s.name == n)).length

/-- `stopSession`: clear and null the capture interval, close and null the
WebSocket, stop every media track and null the stream ref, detach the video
source, drop the flags and empty the detected list.  Besides the new client
state it returns the external objects' final condition: the old socket after
`close()` and the old stream's tracks after `stop()`. -/
def stopSession (s : ClientState) :
    ClientState × Option WSReady × List MTrack :=
  ({ s with
      intervalRef := none
      wsRef := none
      streamRef := none
      videoSrcObject := false
      isCameraActive := false
      wsConnected := false
      detected := [] },
   s.wsRef.map (fun _ => WSReady.CLOSED),
   (s.streamRef.getD []).map (fun t => { t with stopped := true }))

/-- A frame message sent to the server: `canvas.toDataURL('image/jpeg', 0.7)`
of the 640×480 capture canvas; `image` abstracts the encoded pixels. -/
structure FrameMsg where
  mime : String
  width : Nat
  height : Nat
  quality : ℚ
  image : Nat
deriving DecidableEq

/-- Whether the client's socket ref holds an OPEN socket
(`wsRef.current && wsRef.current.readyState === WebSocket.OPEN`). -/
def wsOpen (s : ClientState) : Bool :=
  match s.wsRef with
  | some .OPEN => true
  | _ => false

/-- `sendFrame`: returns without sending when the socket is not open, when the
video/canvas refs are missing, or when `getContext('2d')` yields no context;
otherwise sets the capture canvas to 640×480, draws the current video frame
and sends its JPEG data URL. -/
def sendFrame (s : ClientState) : Option FrameMsg :=
  if wsOpen s = false then none
  else if s.videoRefPresent = false ∨ s.canvasRefPresent = false then none
  else if s.canvasCtxPresent = false then none
  else some ⟨"image/jpeg", 640, 480, 7 / 10, s.videoFrame⟩

/-- Auto-capture cadence of `startSession`:
`setInterval(() => sendFrame(), 1500)`. -/
def captureIntervalMs : Nat := 1500

/-- The confirmation progress bar of the overlay draw loop: drawn only for a
face that is not confirmed and has a positive `frames_required`, with fill
fraction `Math.min(frames_confirmed / frames_required, 1)`. -/
def drawProgress (d : DetectedFace) : Option ℚ :=
  if d.confirmedFlag = false ∧ 0 < d.framesRequiredField then
    some (min ((d.framesConfirmedField : ℚ) / (d.framesRequiredField : ℚ)) 1)
  else none

/-- `AttendanceHistoryPage.getAttendanceRate`: percentage of present students
in a daily record, `Math.round((present_count / total) * 100)` when the day
has any students and `0` otherwise. -/
def getAttendanceRate (presentCount absentCount : Nat) : ℤ :=
  let total := presentCount + absentCount
  if 0 < total then round (((presentCount : ℚ) / (total : ℚ)) * 100) else 0

/-- A row of the student registry (only the id matters for deletion). -/
structure StudentRec where
  id : Nat
deriving DecidableEq

/-- State of `StudentList` relevant to deletion: the loaded students, the
armed confirmation flag and the in-flight delete marker. -/
structure StudentListState where
  students : List StudentRec
  deleteConfirm : Option Nat
  deleteLoading : Option Nat
deriving DecidableEq

/-- Auto-clear delay of the armed delete confirmation:
`setTimeout(() => setDeleteConfirm(null), 3000)`. -/
def deleteConfirmTimeoutMs : Nat := 3000

/-- The confirmation timeout firing: the armed flag is cleared. -/
def confirmTimeout (s : StudentListState) : StudentListState :=
  { s with deleteConfirm := none }

/-- `StudentList.handleDelete`: when the confirmation flag is not armed for
this id, arm it and return without issuing the request; when it is, issue the
delete (the returned Bool), remove the student and clear both markers. -/
def handleDelete (s : StudentListState) (id : Nat) : StudentListState × Bool :=
  if s.deleteConfirm ≠ some id then
    ({ s with deleteConfirm := some id }, false)
  else
    ({ students := s.students.filter (fun x => x.id ≠ id)
       deleteConfirm := none
       deleteLoading := none }, true)

/-!
Backend recognition engine.  The repository snapshot ships only the frontend;
the FastAPI backend (identity matcher, liveness gate, confirmation state
machine, mark emission) is referenced by the spec and by the client but its
source is absent, so the following definitions are modelled from the
specification text (§4.4, §4.6, §4.7 and §8).
-/

/-- Modelled from the spec: a gallery entry of the session's immutable
snapshot — an enrolled identity id with its embedding vector (§3, §4.4). -/
structure GalleryEntry where
  ident : Nat
  emb : List ℚ
deriving DecidableEq

/-- Squared Euclidean distance between two embedding vectors (§4.4 leaves the
metric as "e.g., Euclidean or cosine"). -/
def dist2 (a b : List ℚ) : ℚ :=
  ((a.zip b).map (fun p => (p.1 - p.2) ^ 2)).foldl (· + ·) 0

/-- Modelled from the spec: tie-aware choice between the current best match
and a candidate — strictly smaller distance wins; at equal distance the entry
matched on the preceding frame is preferred, else the earlier one (§4.4). -/
def betterMatch (prev : Option Nat) (best cand : Nat × ℚ) : Nat × ℚ :=
  if cand.2 < best.2 then cand
  else if cand.2 = best.2 ∧ some cand.1 = prev ∧ some best.1 ≠ prev then cand
  else best

/-- Modelled from the spec: the minimum-distance gallery entry for an
embedding, `none` on an empty gallery (§4.4). -/
def bestMatch (prev : Option Nat) (e : List ℚ) (g : List GalleryEntry) :
    Option (Nat × ℚ) :=
  match g with
  | [] => none
  | x :: xs =>
      some (xs.foldl
        (fun b y => betterMatch prev b (y.ident, dist2 e y.emb))
        (x.ident, dist2 e x.emb))

/-- Modelled from the spec: the identity matcher — nearest gallery entry,
confidence from a monotone decreasing transform with confidence 1 at distance
0 and 0 from the rejection threshold on; a best distance exceeding the
rejection threshold, or an empty gallery, reports "Unknown" (`none`) (§4.4). -/
def matchIdentity (reject : ℚ) (prev : Option Nat) (e : List ℚ)
    (g : List GalleryEntry) : Option Nat × ℚ :=
  match bestMatch prev e g with
  | none => (none, 0)
  | some (i, d) =>
      let conf := max 0 (1 - d / reject)
      if reject < d then (none, conf) else (some i, conf)

/-- Confirmation states of a tracked face (§4.7). -/
inductive TState
  | detected
  | verifying
  | confirmedSt
  | rejected
deriving DecidableEq

/-- Modelled from the spec: what the pipeline observes about one track on one
frame — the matcher's best identity (`none` = "Unknown"), its confidence, and
whether the liveness score is above the pass threshold (§4.4, §4.6). -/
structure FrameObs where
  ident : Option Nat
  conf : ℚ
  live : Bool
deriving DecidableEq

/-- Modelled from the spec: tuning constants of the confirmation machine —
`matchThreshold`, `framesRequired`, the liveness hysteresis count and the
cool-down length (§4.6, §4.7). -/
structure TrackCfg where
  matchThreshold : ℚ
  framesRequired : Nat
  livenessHysteresis : Nat
  cooldownFrames : Nat

/-- Modelled from the spec: per-track confirmation state — current state,
committed best identity, `frames_confirmed`, the consecutive-liveness-failure
counter and the cool-down progress (§3 TrackedFace). -/
structure TrackState where
  st : TState
  ident : Option Nat
  framesConfirmed : Nat
  liveFails : Nat
  cooldown : Nat
deriving DecidableEq

/-- A freshly allocated track: state DETECTED, no identity, no progress. -/
def initTrack : TrackState := ⟨.detected, none, 0, 0, 0⟩

/-- Modelled from the spec: one step of the confirmation state machine for one
track and one frame observation (§4.5–§4.7).  CONFIRMED is terminal for the
session.  REJECTED thaws to DETECTED after a cool-down of passing liveness.
A frame failing liveness increments the consecutive-failure counter and forces
REJECTED at the hysteresis count; below it, a failing frame in VERIFYING
resets progress to DETECTED.  A DETECTED track enters VERIFYING (progress 1)
on a known identity with confidence at the match threshold and passing
liveness; a VERIFYING track advances only while the identity is unchanged,
confidence stays at threshold and liveness passes, confirming once
`frames_confirmed` reaches `frames_required`; any disqualifying frame resets
it to DETECTED. -/
def stepTrack (cfg : TrackCfg) (s : TrackState) (o : FrameObs) : TrackState :=
  match s.st with
  | .confirmedSt => s
  | .rejected =>
      if o.live then
        if cfg.cooldownFrames ≤ s.cooldown + 1 then ⟨.detected, none, 0, 0, 0⟩
        else ⟨.rejected, s.ident, 0, 0, s.cooldown + 1⟩
      else ⟨.rejected, s.ident, 0, s.liveFails + 1, 0⟩
  | .detected =>
      if o.live then
        match o.ident with
        | some i =>
            if cfg.matchThreshold ≤ o.conf then ⟨.verifying, some i, 1, 0, 0⟩
            else ⟨.detected, some i, 0, 0, 0⟩
        | none => ⟨.detected, none, 0, 0, 0⟩
      else
        if cfg.livenessHysteresis ≤ s.liveFails + 1 then
          ⟨.rejected, s.ident, 0, s.liveFails + 1, 0⟩
        else ⟨.detected, s.ident, 0, s.liveFails + 1, 0⟩
  | .verifying =>
      if o.live then
        if o.ident = s.ident ∧ cfg.matchThreshold ≤ o.conf then
          if cfg.framesRequired ≤ s.framesConfirmed + 1 then
            ⟨.confirmedSt, s.ident, s.framesConfirmed + 1, 0, 0⟩
          else ⟨.verifying, s.ident, s.framesConfirmed + 1, 0, 0⟩
        else ⟨.detected, o.ident, 0, 0, 0⟩
      else
        if cfg.livenessHysteresis ≤ s.liveFails + 1 then
          ⟨.rejected, s.ident, 0, s.liveFails + 1, 0⟩
        else ⟨.detected, s.ident, 0, s.liveFails + 1, 0⟩

/-- Run the confirmation machine over a track's frame observations. -/
def runTrack (cfg : TrackCfg) (l : List FrameObs) : TrackState :=
  l.foldl (stepTrack cfg) initTrack

/-- Modelled from the spec: mark emission — on the frame a track first reaches
CONFIRMED, its identity is appended to the session's marked list unless
already present (§4.7). -/
def stepMarks (cfg : TrackCfg) (p : TrackState × List Nat) (o : FrameObs) :
    TrackState × List Nat :=
  let s := stepTrack cfg p.1 o
  if p.1.st ≠ .confirmedSt ∧ s.st = .confirmedSt then
    match s.ident with
    | some i => if i ∈ p.2 then (s, p.2) else (s, p.2 ++ [i])
    | none => (s, p.2)
  else (s, p.2)

/-- The machine together with the session's emitted mark events. -/
def runMarks (cfg : TrackCfg) (l : List FrameObs) : TrackState × List Nat :=
  l.foldl (stepMarks cfg) (initTrack, [])

/-- A frame observation qualifying for confirmation of identity `i`:
that identity is the best match, confidence at the threshold, liveness
passing. -/
def Qual (cfg : TrackCfg) (i : Nat) (o : FrameObs) : Prop :=
  o.ident = some i ∧ cfg.matchThreshold ≤ o.conf ∧ o.live = true

instance (cfg : TrackCfg) (i : Nat) (o : FrameObs) : Decidable (Qual cfg i o) :=
  inferInstanceAs (Decidable (_ ∧ _ ∧ _))

/-- Invariant tying a track's state to the observations already processed:
a VERIFYING track's `frames_confirmed` counts a qualifying suffix of the
history for its committed identity, and a CONFIRMED track's history contains a
contiguous qualifying run of at least `frames_required` frames. -/
def TrackInv (cfg : TrackCfg) (l : List FrameObs) (s : TrackState) : Prop :=
  (s.st = .verifying →
    ∃ i pre suf, s.ident = some i ∧ l = pre ++ suf ∧
      suf.length = s.framesConfirmed ∧ 1 ≤ s.framesConfirmed ∧
      ∀ o ∈ suf, Qual cfg i o) ∧
  (s.st = .confirmedSt →
    ∃ i pre mid suf, l = pre ++ mid ++ suf ∧
      cfg.framesRequired ≤ mid.length ∧ ∀ o ∈ mid, Qual cfg i o)

/-!  Theorems.  -/

/-- C4: `stopSession` clears and nulls the capture interval, closes and nulls
the WebSocket, stops every media track, empties the detected list; afterwards
`sendFrame` transmits nothing and delivered socket messages have no effect,
so no further marked entries can be added for the session. -/
theorem stop_session_teardown (s : ClientState) :
    (stopSession s).1.intervalRef = none ∧
    (stopSession s).1.wsRef = none ∧
    (stopSession s).2.1 = s.wsRef.map (fun _ => WSReady.CLOSED) ∧
    ((stopSession s).2.2.all (fun t => t.stopped)) = true ∧
    (stopSession s).1.detected = [] ∧
    sendFrame (stopSession s).1 = none ∧
    (∀ t m, deliver t (stopSession s).1 m = (stopSession s).1) := by
  refine ⟨rfl, rfl, rfl, ?_, rfl, rfl, fun t m => rfl⟩
  rw [List.all_eq_true]
  intro x hx
  have hx' : x ∈ (s.streamRef.getD []).map
      (fun t => ({ t with stopped := true } : MTrack)) := hx
  rw [List.mem_map] at hx'
  obtain ⟨y, -, rfl⟩ := hx'
  rfl

/-- C5: a message that fails to parse leaves the client state untouched and
does not end the session; a well-formed message without a `detected` field is
handled exactly like one with zero faces; and `sendFrame` emits a frame
precisely when the socket is open, the video and canvas refs are there, and
the canvas yields a 2d context — in particular it is a no-op whenever the
socket is not open or a ref is missing. -/
theorem per_message_error_isolation :
    (∀ t s, onMessage t s .malformed = s) ∧
    (∀ t s, onMessage t s (.wellFormed none) =
      onMessage t s (.wellFormed (some []))) ∧
    (∀ s : ClientState, (sendFrame s).isSome =
      (wsOpen s && s.videoRefPresent && s.canvasRefPresent &&
        s.canvasCtxPresent)) := by
  refine ⟨fun t s => rfl, fun t s => rfl, fun s => ?_⟩
  unfold sendFrame
  cases h1 : wsOpen s <;> cases h2 : s.videoRefPresent <;>
    cases h3 : s.canvasRefPresent <;> cases h4 : s.canvasCtxPresent <;>
    simp [h1, h2, h3, h4]

/-- C6: every frame message the client emits is exactly the JPEG data URL of
the 640×480 capture canvas, and the per-face record and its bounding box
consist of exactly the protocol's fields. -/
theorem protocol_message_shape :
    (∀ s : ClientState, sendFrame s = none ∨
      sendFrame s = some ⟨"image/jpeg", 640, 480, 7 / 10, s.videoFrame⟩) ∧
    (∀ f : DetectedFace,
      f = ⟨f.name, f.confidence, f.marked, f.confirmedFlag, f.bbox,
        f.framesConfirmedField, f.framesRequiredField⟩) ∧
    (∀ b : BBox, b = ⟨b.x, b.y, b.w, b.h⟩) := by
  refine ⟨fun s => ?_, fun f => rfl, fun b => rfl⟩
  by_cases h1 : wsOpen s = false
  · exact Or.inl (by simp [sendFrame, h1])
  · by_cases h2 : s.videoRefPresent = false ∨ s.canvasRefPresent = false
    · exact Or.inl (by simp only [sendFrame]; rw [if_neg h1, if_pos h2])
    · by_cases h3 : s.canvasCtxPresent = false
      · exact Or.inl
          (by simp only [sendFrame]; rw [if_neg h1, if_neg h2, if_pos h3])
      · exact Or.inr
          (by simp only [sendFrame]; rw [if_neg h1, if_neg h2, if_neg h3])

/-- C7: frames are client-paced on a fixed 1.5-second interval; over any
sequence of tick states at most one frame is sent per tick (so sent frames
never outnumber elapsed ticks), and a tick where the socket is not open sends
nothing. -/
theorem client_paced_frame_flow :
    captureIntervalMs = 1500 ∧
    ∀ states : List ClientState,
      (states.filterMap sendFrame).length ≤ states.length ∧
      states.all (fun s => wsOpen s || (sendFrame s).isNone) = true := by
  refine ⟨rfl, fun states => ⟨List.length_filterMap_le _ _, ?_⟩⟩
  rw [List.all_eq_true]
  intro s _
  cases h : wsOpen s
  · simp [sendFrame, h]
  · simp

/-- C8: the confirmation progress bar is drawn only for an unconfirmed face
with positive `frames_required` (so the divisor is never zero), and the drawn
fraction is clamped to at most 1 and is never negative. -/
theorem progress_bar_division_safe (d : DetectedFace) (q : ℚ)
    (h : drawProgress d = some q) :
    d.confirmedFlag = false ∧ 0 < d.framesRequiredField ∧ 0 ≤ q ∧ q ≤ 1 := by
  unfold drawProgress at h
  by_cases hc : d.confirmedFlag = false ∧ 0 < d.framesRequiredField
  · rw [if_pos hc, Option.some.injEq] at h
    refine ⟨hc.1, hc.2, ?_, ?_⟩
    · rw [← h]
      exact le_min (by positivity) (by norm_num)
    · rw [← h]
      exact min_le_right _ _
  · rw [if_neg hc] at h
    exact absurd h (by simp)

/-- Witness for C8 at a face the server over-reports (7 of 5 frames):
the bar is drawn with fraction exactly 1. -/
theorem progress_bar_division_safe_witness :
    (⟨"Alice", 1 / 2, false, false, ⟨0, 0, 1, 1⟩, 7, 5⟩ :
        DetectedFace).confirmedFlag = false ∧
    0 < (⟨"Alice", 1 / 2, false, false, ⟨0, 0, 1, 1⟩, 7, 5⟩ :
        DetectedFace).framesRequiredField ∧
    0 ≤ (1 : ℚ) ∧ (1 : ℚ) ≤ 1 :=
  progress_bar_division_safe
    ⟨"Alice", 1 / 2, false, false, ⟨0, 0, 1, 1⟩, 7, 5⟩ 1
    (by norm_num [drawProgress, min_def])

/-- C9: the attendance rate is total — 0 on an empty day, otherwise the
rounded percentage of present students — and always lands in [0, 100]. -/
theorem attendance_rate_total_bounded (p a : ℕ) :
    (p + a = 0 → getAttendanceRate p a = 0) ∧
    (0 < p + a → getAttendanceRate p a =
      round ((100 * (p : ℚ)) / ((p : ℚ) + (a : ℚ)))) ∧
    0 ≤ getAttendanceRate p a ∧ getAttendanceRate p a ≤ 100 := by
  have htotal : (((p + a : ℕ)) : ℚ) = (p : ℚ) + (a : ℚ) := by push_cast; ring
  refine ⟨fun h => by simp [getAttendanceRate, h], fun h => ?_, ?_⟩
  · have : getAttendanceRate p a =
        round (((p : ℚ) / ((p : ℚ) + (a : ℚ))) * 100) := by
      simp [getAttendanceRate, h, htotal]
    rw [this]
    congr 1
    ring
  · by_cases h : 0 < p + a
    · have hpos : (0 : ℚ) < (p : ℚ) + (a : ℚ) := by
        rw [← htotal]
        exact_mod_cast h
      have hrate : getAttendanceRate p a =
          round (((p : ℚ) / ((p : ℚ) + (a : ℚ))) * 100) := by
        simp [getAttendanceRate, h, htotal]
      have hx0 : 0 ≤ ((p : ℚ) / ((p : ℚ) + (a : ℚ))) * 100 := by positivity
      have hx1 : ((p : ℚ) / ((p : ℚ) + (a : ℚ))) * 100 ≤ 100 := by
        have hle : (p : ℚ) / ((p : ℚ) + (a : ℚ)) ≤ 1 :=
          div_le_one_of_le₀ (le_add_of_nonneg_right (by positivity)) (le_of_lt hpos)
        nlinarith
      rw [hrate, round_eq]
      constructor
      · exact Int.le_floor.mpr (by push_cast; linarith)
      · exact Int.lt_add_one_iff.mp (Int.floor_lt.mpr (by push_cast; linarith))
    · have h0 : p + a = 0 := Nat.eq_zero_of_not_pos h
      simp [getAttendanceRate, h0]

/-- Witness for C9: an empty day gives 0, and a day with 2 present of 5 gives
the rounded percentage inside [0, 100]. -/
theorem attendance_rate_total_bounded_witness :
    getAttendanceRate 0 0 = 0 ∧
    getAttendanceRate 2 3 =
      round ((100 * ((2 : ℕ) : ℚ)) / (((2 : ℕ) : ℚ) + ((3 : ℕ) : ℚ))) ∧
    0 ≤ getAttendanceRate 2 3 ∧ getAttendanceRate 2 3 ≤ 100 :=
  ⟨(attendance_rate_total_bounded 0 0).1 rfl,
   (attendance_rate_total_bounded 2 3).2.1 (by norm_num),
   (attendance_rate_total_bounded 2 3).2.2.1,
   (attendance_rate_total_bounded 2 3).2.2.2⟩

/-- C10: a call of `handleDelete` while the confirmation flag is not armed for
that id only arms the flag (auto-cleared after 3000 ms) and issues no delete
request; a request is issued only when the flag already equals that id. -/
theorem delete_requires_two_steps (s : StudentListState) (i : Nat) :
    (s.deleteConfirm ≠ some i →
      handleDelete s i = ({ s with deleteConfirm := some i }, false)) ∧
    ((handleDelete s i).2 = true → s.deleteConfirm = some i) ∧
    deleteConfirmTimeoutMs = 3000 := by
  refine ⟨fun h => by simp [handleDelete, h], fun h => ?_, rfl⟩
  by_contra hc
  simp [handleDelete, hc] at h

/-- Witness for C10: a first call with an unarmed flag arms it without
deleting; a call with the flag armed for id 5 implies the flag was `some 5`. -/
theorem delete_requires_two_steps_witness :
    handleDelete ⟨[⟨5⟩], none, none⟩ 5 = (⟨[⟨5⟩], some 5, none⟩, false) ∧
    (⟨[⟨5⟩], some 5, none⟩ : StudentListState).deleteConfirm = some 5 :=
  ⟨(delete_requires_two_steps ⟨[⟨5⟩], none, none⟩ 5).1 (by decide),
   (delete_requires_two_steps ⟨[⟨5⟩], some 5, none⟩ 5).2.1 (by decide)⟩


/-- One `updateMarked` step keeps every name's session-log count at most 1. -/
theorem updateMarked_atMostOnce (t : String) (f : DetectedFace)
    (l : List MarkedStudent) (h : ∀ n, countByName n l ≤ 1) (n : String) :
    countByName n (updateMarked t l f) ≤ 1 := by
  unfold updateMarked
  by_cases hm : f.marked = true
  · by_cases ha : l.any (fun s => s.name == f.name) = true
    · rw [if_pos hm, if_pos ha]
      exact h n
    · rw [if_pos hm, if_neg ha]
      unfold countByName
      rw [List.filter_cons]
      by_cases hn : ((⟨f.name, t⟩ : MarkedStudent).name == n) = true
      · rw [if_pos hn, List.length_cons]
        have hfn : f.name = n := by simpa using hn
        have hzero : l.filter (fun s => s.name == n) = [] := by
          rw [List.filter_eq_nil_iff]
          intro s hs
          have hne := List.any_eq_false.mp (Bool.eq_false_iff.mpr ha) s hs
          simpa [← hfn] using hne
        rw [hzero]
        simp
      · rw [if_neg hn]
        exact h n
  · rw [if_neg hm]
    exact h n

/-- Folding `updateMarked` over a reply's faces preserves the bound. -/
theorem foldl_updateMarked_atMostOnce (t : String) (faces : List DetectedFace)
    (l : List MarkedStudent) (h : ∀ n, countByName n l ≤ 1) (n : String) :
    countByName n (faces.foldl (updateMarked t) l) ≤ 1 := by
  induction faces generalizing l with
  | nil => exact h n
  | cons f fs ih =>
      exact ih (updateMarked t l f) (updateMarked_atMostOnce t f l h)

/-- The message handler preserves the bound on the session log. -/
theorem onMessage_atMostOnce (t : String) (s : ClientState) (m : WSMsg)
    (h : ∀ n, countByName n s.markedStudents ≤ 1) (n : String) :
    countByName n (onMessage t s m).markedStudents ≤ 1 := by
  cases m with
  | malformed => exact h n
  | wellFormed d =>
      exact foldl_updateMarked_atMostOnce t (d.getD []) s.markedStudents h n

/-- Folding the handler over a message sequence preserves the bound. -/
theorem foldl_onMessage_atMostOnce (msgs : List (String × WSMsg))
    (s : ClientState) (h : ∀ n, countByName n s.markedStudents ≤ 1)
    (n : String) :
    countByName n
      ((msgs.foldl (fun s p => onMessage p.1 s p.2) s).markedStudents) ≤ 1 := by
  induction msgs generalizing s with
  | nil => exact h n
  | cons m ms ih => exact ih _ (onMessage_atMostOnce m.1 s m.2 h)

/-- C1: over any sequence of received WebSocket messages in a session the
marked-students log gains at most one entry per identity name, and once a
name is in the log a marked face with that name leaves the log unchanged. -/
theorem marking_at_most_once_per_identity :
    (∀ msgs n, countByName n (runSession msgs).markedStudents ≤ 1) ∧
    (∀ t prev f, prev.any (fun s => s.name == f.name) = true →
      updateMarked t prev f = prev) := by
  constructor
  · intro msgs n
    exact foldl_onMessage_atMostOnce msgs sessionInit
      (fun n => by simp [sessionInit, countByName]) n
  · intro t prev f h
    unfold updateMarked
    by_cases hm : f.marked = true
    · rw [if_pos hm, if_pos h]
    · rw [if_neg hm]

/-- Witness for C1: with Alice already in the log, a second marked message for
Alice leaves the log unchanged. -/
theorem marking_at_most_once_per_identity_witness :
    updateMarked "10:01" [⟨"Alice", "10:00"⟩]
      ⟨"Alice", 9 / 10, true, true, ⟨0, 0, 1, 1⟩, 5, 5⟩ =
      [⟨"Alice", "10:00"⟩] :=
  marking_at_most_once_per_identity.2 "10:01" [⟨"Alice", "10:00"⟩]
    ⟨"Alice", 9 / 10, true, true, ⟨0, 0, 1, 1⟩, 5, 5⟩ (by decide)

/-- The track invariant holds for a fresh track with no processed frames. -/
theorem trackInv_init (cfg : TrackCfg) : TrackInv cfg [] initTrack := by
  unfold TrackInv
  exact ⟨fun h => by simp [initTrack] at h, fun h => by simp [initTrack] at h⟩

/-- The track invariant is preserved by one step of the machine. -/
theorem trackInv_step (cfg : TrackCfg) (l : List FrameObs) (s : TrackState)
    (o : FrameObs) (h : TrackInv cfg l s) :
    TrackInv cfg (l ++ [o]) (stepTrack cfg s o) := by
  obtain ⟨hv, hc⟩ := h
  unfold TrackInv
  unfold stepTrack
  cases hst : s.st with
  | confirmedSt =>
      refine ⟨fun hbad => ?_, fun _ => ?_⟩
      · rw [hst] at hbad
        simp at hbad
      · obtain ⟨i, pre, mid, suf, heq, hlen, hgood⟩ := hc hst
        exact ⟨i, pre, mid, suf ++ [o], by rw [heq]; simp, hlen, hgood⟩
  | rejected =>
      refine ⟨fun hbad => ?_, fun hbad => ?_⟩ <;>
        · dsimp only at hbad
          split at hbad
          · split at hbad <;> simp at hbad
          · simp at hbad
  | detected =>
      dsimp only
      by_cases hl : o.live = true
      · rw [if_pos hl]
        cases ho : o.ident with
        | none =>
            exact ⟨fun hbad => by simp at hbad, fun hbad => by simp at hbad⟩
        | some i =>
            dsimp only
            by_cases hconf : cfg.matchThreshold ≤ o.conf
            · rw [if_pos hconf]
              refine ⟨fun _ => ⟨i, l, [o], rfl, rfl, rfl, le_refl 1, ?_⟩,
                fun hbad => by simp at hbad⟩
              intro o' ho'
              rw [List.mem_singleton] at ho'
              subst ho'
              exact ⟨ho, hconf, hl⟩
            · rw [if_neg hconf]
              exact ⟨fun hbad => by simp at hbad, fun hbad => by simp at hbad⟩
      · rw [if_neg hl]
        refine ⟨fun hbad => ?_, fun hbad => ?_⟩ <;>
          · split at hbad <;> simp at hbad
  | verifying =>
      obtain ⟨i, pre, suf, hid, hleq, hlen, hfc1, hgood⟩ := hv hst
      dsimp only
      by_cases hl : o.live = true
      · rw [if_pos hl]
        by_cases hq : o.ident = s.ident ∧ cfg.matchThreshold ≤ o.conf
        · rw [if_pos hq]
          have hoid : o.ident = some i := by rw [hq.1, hid]
          have hqual : Qual cfg i o := ⟨hoid, hq.2, hl⟩
          have hgood' : ∀ o' ∈ suf ++ [o], Qual cfg i o' := by
            intro o' ho'
            rcases List.mem_append.mp ho' with h' | h'
            · exact hgood o' h'
            · rw [List.mem_singleton] at h'
              subst h'
              exact hqual
          by_cases hN : cfg.framesRequired ≤ s.framesConfirmed + 1
          · rw [if_pos hN]
            refine ⟨fun hbad => by simp at hbad, fun _ =>
              ⟨i, pre, suf ++ [o], [], ?_, ?_, hgood'⟩⟩
            · rw [hleq]
              simp
            · simpa [hlen] using hN
          · rw [if_neg hN]
            refine ⟨fun _ => ⟨i, pre, suf ++ [o], hid, ?_, ?_, ?_, hgood'⟩,
              fun hbad => by simp at hbad⟩
            · rw [hleq, List.append_assoc]
            · simp [hlen]
            · exact Nat.succ_le_succ (Nat.zero_le _)
        · rw [if_neg hq]
          exact ⟨fun hbad => by simp at hbad, fun hbad => by simp at hbad⟩
      · rw [if_neg hl]
        refine ⟨fun hbad => ?_, fun hbad => ?_⟩ <;>
          · split at hbad <;> simp at hbad

/-- The track invariant holds after running any observation sequence. -/
theorem trackInv_run (cfg : TrackCfg) (l : List FrameObs) :
    TrackInv cfg l (runTrack cfg l) := by
  induction l using List.reverseRecOn with
  | nil => exact trackInv_init cfg
  | append_singleton xs x ih =>
      have hfold : runTrack cfg (xs ++ [x]) =
          stepTrack cfg (runTrack cfg xs) x := by
        simp [runTrack, List.foldl_append]
      rw [hfold]
      exact trackInv_step cfg xs (runTrack cfg xs) x ih

/-- C2: a track is CONFIRMED only after a contiguous run of at least
`frames_required` consecutive frames, each with the same best identity,
confidence at or above `match_threshold`, and passing liveness; any shorter or
interrupted run never yields CONFIRMED. -/
theorem confirmed_requires_sustained_run (cfg : TrackCfg) (l : List FrameObs)
    (h : (runTrack cfg l).st = .confirmedSt) :
    ∃ i pre mid suf, l = pre ++ mid ++ suf ∧
      cfg.framesRequired ≤ mid.length ∧ ∀ o ∈ mid, Qual cfg i o :=
  (trackInv_run cfg l).2 h

/-- Witness for C2: with `frames_required = 2` and two qualifying frames for
identity 1, the machine confirms and the qualifying window exists. -/
theorem confirmed_requires_sustained_run_witness :
    (runTrack ⟨1, 2, 2, 3⟩
      ([⟨some 1, 2, true⟩, ⟨some 1, 3, true⟩] :
        List FrameObs)).st = .confirmedSt ∧
    ∃ i pre mid suf,
      ([⟨some 1, 2, true⟩, ⟨some 1, 3, true⟩] : List FrameObs) =
        pre ++ mid ++ suf ∧
      (⟨1, 2, 2, 3⟩ : TrackCfg).framesRequired ≤ mid.length ∧
      ∀ o ∈ mid, Qual ⟨1, 2, 2, 3⟩ i o :=
  ⟨by decide,
   confirmed_requires_sustained_run ⟨1, 2, 2, 3⟩
     ([⟨some 1, 2, true⟩, ⟨some 1, 3, true⟩] : List FrameObs)
     (by decide)⟩

/-- `betterMatch` always returns one of its two candidates. -/
theorem betterMatch_cases (prev : Option Nat) (b c : Nat × ℚ) :
    betterMatch prev b c = b ∨ betterMatch prev b c = c := by
  unfold betterMatch
  split
  · exact Or.inr rfl
  · split
    · exact Or.inr rfl
    · exact Or.inl rfl

/-- The fold underlying `bestMatch` returns the seed or a candidate built
from a gallery entry. -/
theorem foldl_betterMatch_mem (prev : Option Nat) (e : List ℚ)
    (xs : List GalleryEntry) (b : Nat × ℚ) :
    xs.foldl (fun b y => betterMatch prev b (y.ident, dist2 e y.emb)) b = b ∨
    ∃ x ∈ xs,
      xs.foldl (fun b y => betterMatch prev b (y.ident, dist2 e y.emb)) b =
        (x.ident, dist2 e x.emb) := by
  induction xs generalizing b with
  | nil => exact Or.inl rfl
  | cons y ys ih =>
      rcases ih (betterMatch prev b (y.ident, dist2 e y.emb)) with h | ⟨x, hx, h⟩
      · rcases betterMatch_cases prev b (y.ident, dist2 e y.emb) with h2 | h2
        · exact Or.inl (by rw [List.foldl_cons, h, h2])
        · exact Or.inr ⟨y, List.mem_cons_self y ys, by rw [List.foldl_cons, h, h2]⟩
      · exact Or.inr ⟨x, List.mem_cons_of_mem y hx, by rw [List.foldl_cons, h]⟩

/-- A successful `bestMatch` names a gallery entry and its distance. -/
theorem bestMatch_mem (prev : Option Nat) (e : List ℚ)
    (g : List GalleryEntry) (p : Nat × ℚ) (h : bestMatch prev e g = some p) :
    ∃ x ∈ g, p = (x.ident, dist2 e x.emb) := by
  cases g with
  | nil => exact absurd h (by simp [bestMatch])
  | cons x xs =>
      rw [bestMatch, Option.some.injEq] at h
      rcases foldl_betterMatch_mem prev e xs (x.ident, dist2 e x.emb) with
        h2 | ⟨y, hy, h2⟩
      · exact ⟨x, List.mem_cons_self x xs, by rw [← h, h2]⟩
      · exact ⟨y, List.mem_cons_of_mem x hy, by rw [← h, h2]⟩

/-- On a frame whose best match is "Unknown", a DETECTED or REJECTED track
stays DETECTED or REJECTED. -/
theorem stepTrack_unknown (cfg : TrackCfg) (s : TrackState) (o : FrameObs)
    (ho : o.ident = none) (hs : s.st = .detected ∨ s.st = .rejected) :
    (stepTrack cfg s o).st = .detected ∨ (stepTrack cfg s o).st = .rejected := by
  unfold stepTrack
  rcases hs with h | h <;> rw [h] <;> dsimp only
  · by_cases hl : o.live = true
    · rw [if_pos hl, ho]
      exact Or.inl rfl
    · rw [if_neg hl]
      split
      · exact Or.inr rfl
      · exact Or.inl rfl
  · by_cases hl : o.live = true
    · rw [if_pos hl]
      split
      · exact Or.inl rfl
      · exact Or.inr rfl
    · rw [if_neg hl]
      exact Or.inr rfl

/-- The first component of a `stepMarks` step is the machine step. -/
theorem stepMarks_fst (cfg : TrackCfg) (p : TrackState × List Nat)
    (o : FrameObs) : (stepMarks cfg p o).1 = stepTrack cfg p.1 o := by
  unfold stepMarks
  dsimp only
  split
  · split
    · split <;> rfl
    · rfl
  · rfl

/-- Over a run of "Unknown" frames a DETECTED/REJECTED track never confirms
and the session's mark list never grows. -/
theorem runMarks_unknown_aux (cfg : TrackCfg) (l : List FrameObs) :
    ∀ (s : TrackState) (acc : List Nat), (∀ o ∈ l, o.ident = none) →
      s.st = .detected ∨ s.st = .rejected →
      ((l.foldl (stepMarks cfg) (s, acc)).1.st = .detected ∨
        (l.foldl (stepMarks cfg) (s, acc)).1.st = .rejected) ∧
      (l.foldl (stepMarks cfg) (s, acc)).2 = acc := by
  induction l with
  | nil => exact fun s acc _ hs => ⟨hs, rfl⟩
  | cons o os ih =>
      intro s acc hall hs
      have ho : o.ident = none := hall o (List.mem_cons_self o os)
      have hstep := stepTrack_unknown cfg s o ho hs
      have hmarks : stepMarks cfg (s, acc) o = (stepTrack cfg s o, acc) := by
        unfold stepMarks
        rw [if_neg]
        rintro ⟨-, hconf⟩
        rcases hstep with h2 | h2 <;> rw [h2] at hconf <;> simp at hconf
      rw [List.foldl_cons, hmarks]
      exact ih (stepTrack cfg s o) acc
        (fun o' h' => hall o' (List.mem_cons_of_mem o h')) hstep

/-- The machine component of `runMarks` agrees with `runTrack`. -/
theorem foldl_stepMarks_fst (cfg : TrackCfg) (l : List FrameObs) :
    ∀ (s : TrackState) (acc : List Nat),
      (l.foldl (stepMarks cfg) (s, acc)).1 = l.foldl (stepTrack cfg) s := by
  induction l with
  | nil => exact fun s acc => rfl
  | cons o os ih =>
      intro s acc
      have h1 : stepMarks cfg (s, acc) o =
          (stepTrack cfg s o, (stepMarks cfg (s, acc) o).2) :=
        Prod.ext (stepMarks_fst cfg (s, acc) o) rfl
      rw [List.foldl_cons, List.foldl_cons, h1]
      exact ih (stepTrack cfg s o) _

/-- C3: an empty gallery reports "Unknown"; an embedding farther than the
rejection threshold from every gallery entry reports "Unknown"; and a track
that is "Unknown" on every frame never reaches CONFIRMED and never produces a
mark event. -/
theorem unknown_never_confirms :
    (∀ (r : ℚ) (prev : Option Nat) (e : List ℚ),
      (matchIdentity r prev e []).1 = none) ∧
    (∀ (r : ℚ) (prev : Option Nat) (e : List ℚ) (g : List GalleryEntry),
      (∀ x ∈ g, r < dist2 e x.emb) → (matchIdentity r prev e g).1 = none) ∧
    (∀ (cfg : TrackCfg) (l : List FrameObs), (∀ o ∈ l, o.ident = none) →
      (runTrack cfg l).st ≠ .confirmedSt ∧ (runMarks cfg l).2 = []) := by
  refine ⟨fun r prev e => rfl, fun r prev e g hg => ?_, fun cfg l hall => ?_⟩
  · rcases hbm : bestMatch prev e g with - | ⟨i, d⟩
    · simp [matchIdentity, hbm]
    · obtain ⟨x, hx, hp⟩ := bestMatch_mem prev e g (i, d) hbm
      have hd : r < d := by
        have h2 : d = dist2 e x.emb := congrArg Prod.snd hp
        rw [h2]
        exact hg x hx
      simp [matchIdentity, hbm, hd]
  · have haux := runMarks_unknown_aux cfg l initTrack [] hall (Or.inl rfl)
    refine ⟨fun hconf => ?_, haux.2⟩
    have hfst := foldl_stepMarks_fst cfg l initTrack []
    have hrt : runTrack cfg l = (l.foldl (stepMarks cfg) (initTrack, [])).1 := by
      rw [hfst]
      rfl
    rcases haux.1 with h2 | h2 <;> rw [hrt, h2] at hconf <;> simp at hconf

/-- Witness for C3: empty gallery, an out-of-threshold entry, and a run of two
"Unknown" frames that neither confirms nor marks. -/
theorem unknown_never_confirms_witness :
    (matchIdentity 1 none [] []).1 = none ∧
    (matchIdentity (-1) none [] [⟨7, []⟩]).1 = none ∧
    ((runTrack ⟨1, 2, 2, 3⟩
        ([⟨none, 2, true⟩, ⟨none, 3, false⟩] : List FrameObs)).st ≠
      .confirmedSt ∧
     (runMarks ⟨1, 2, 2, 3⟩
        ([⟨none, 2, true⟩, ⟨none, 3, false⟩] : List FrameObs)).2 = []) :=
  ⟨unknown_never_confirms.1 1 none [],
   unknown_never_confirms.2.1 (-1) none [] [⟨7, []⟩] (by decide),
   unknown_never_confirms.2.2 ⟨1, 2, 2, 3⟩
     ([⟨none, 2, true⟩, ⟨none, 3, false⟩] : List FrameObs) (by decide)⟩
